import Mathlib

/-!
Verification of the langchain-prod-agent orchestration core.

The repository wires a hosted LLM, a hosted vector store and a fixed set of
tools into one conversational loop.  This file gives a shallow embedding of
the parts of the source the claims are about:

* `src/agent.ts` — `runAgent` (the execution wrapper) and `batchProcess`
  (the sequential batch runner).  The underlying `AgentExecutor` is an
  external collaborator; it is modelled as a stateful invoke function that
  either returns an output object or throws.  Wall-clock reads
  (`Date.now()`) are modelled by a time stream indexed by a read counter.
* `src/tools.ts` — the repository snapshot carries two versions of this
  file: the current "runtime-friendly" variant (plain objects, four tools,
  its `document_search.call` rethrows store errors) and the class variant
  (five `Tool` subclasses whose `_call` bodies wrap everything in
  try/catch).  Both are embedded, in namespaces `SimpleTools` and
  `ClassTools`.
* `src/index.ts` — the startup environment check and the interactive-mode
  line dispatch.

JavaScript numbers are modelled as rationals (`ℚ`), thrown values as the
`Thrown` type (an `Error` carrying a message, or a non-`Error` value), and
fallible code returns `Except Thrown _`.
-/

/-- A JavaScript thrown value: either an `Error` object with a `.message`,
or any other value (JS can throw non-errors). -/
inductive Thrown where
  | err (message : String)
  | nonError
deriving DecidableEq, Repr

/-- Embeds the pattern `error instanceof Error ? error.message : 'Unknown error'`
used by every catch block in src/agent.ts and src/tools.ts. -/
def thrownMessage : Thrown → String
  | Thrown.err m => m
  | Thrown.nonError => "Unknown error"

/-! ## Agent execution wrapper (src/agent.ts) -/

/-- The object resolved by `executor.invoke({input, ...})`: the source reads
its `.output` field and passes the whole object through as metadata. -/
structure AgentOutput where
  output : String
deriving DecidableEq, Repr

/-- The result object built by `runAgent` (src/agent.ts lines 119-132).
JavaScript object fields that a branch omits are `Option.none` here: the
success branch builds `{success, output, duration, metadata}` and the catch
branch builds `{success, error, output}`. -/
structure ExecutionResult where
  success : Bool
  output : Option String
  error : Option String
  duration : Option Int
  metadata : Option AgentOutput
deriving DecidableEq, Repr

/-- The external `AgentExecutor` collaborator, over an opaque internal state
type `σ` (conversation memory, iteration counters, ...).  One invocation
consumes a state and an input and either resolves with an `AgentOutput` or
rejects with a thrown value; either way it may leave a new state. -/
structure Executor (σ : Type) where
  invoke : σ → String → Except Thrown AgentOutput × σ

/-- Ambient execution world: the executor's state plus a wall-clock model.
`time n` is the value of the n-th `Date.now()` read of the process and
`tick` counts the reads made so far. -/
structure World (σ : Type) where
  execState : σ
  time : Nat → Int
  tick : Nat

/-- The fixed user-safe fallback output of `runAgent`'s catch branch
(src/agent.ts line 131). -/
def fallbackOutput : String :=
  "I encountered an error processing your request. Please try again or rephrase your question."

/-- Embeds `runAgent` (src/agent.ts lines 97-134).  The try block reads
`Date.now()`, awaits `executor.invoke`, reads `Date.now()` again and returns
the success object; the catch branch returns the failure object (no
`duration`, no `metadata` field) without rethrowing — which the embedding
renders by `runAgent` being a total function into `ExecutionResult`.
Console logging is effect-free for the result and is not modelled. -/
def runAgent {σ : Type} (E : Executor σ) (input : String) (w : World σ) :
    ExecutionResult × World σ :=
  let startTime := w.time w.tick
  let w0 : World σ := { w with tick := w.tick + 1 }
  let inv := E.invoke w0.execState input
  let w1 : World σ := { w0 with execState := inv.2 }
  match inv.1 with
  | Except.ok result =>
      let endTime := w1.time w1.tick
      let w2 : World σ := { w1 with tick := w1.tick + 1 }
      ({ success := true, output := some result.output, error := none,
         duration := some (endTime - startTime), metadata := some result }, w2)
  | Except.error e =>
      ({ success := false, output := some fallbackOutput,
         error := some (thrownMessage e), duration := none, metadata := none }, w1)

/-- Embeds `batchProcess` (src/agent.ts lines 139-156): a sequential
`for (const [index, query] of queries.entries())` loop that awaits
`runAgent` for each query in order and pushes every result. -/
def batchProcess {σ : Type} (E : Executor σ) (queries : List String) (w : World σ) :
    List ExecutionResult × World σ :=
  match queries with
  | [] => ([], w)
  | q :: rest =>
      let step := runAgent E q w
      let restOut := batchProcess E rest step.2
      (step.1 :: restOut.1, restOut.2)

/-! ## Shared tool material (src/tools.ts, both versions) -/

/-- A row returned by the hosted store's `match_documents` remote procedure:
the source reads `.content` (and, in the class version, `.similarity`). -/
structure DocRow where
  content : String
  similarity : ℚ

/-- The `{data, error}` shape resolved by `supabase.rpc(...)`: `data` may be
null (`none`) or a row list, `error` is null or an error value. -/
structure RpcResult where
  data : Option (List DocRow)
  error : Option Thrown

/-- The six operations of the `data_analysis` zod schema
(`z.enum(['mean','median','sum','count','min','max'])`). -/
inductive StatsOp where
  | mean
  | median
  | sum
  | count
  | min
  | max
deriving DecidableEq, Repr

/-- The enum value's string, as interpolated into the tool's result line. -/
def statsOpName : StatsOp → String
  | StatsOp.mean => "mean"
  | StatsOp.median => "median"
  | StatsOp.sum => "sum"
  | StatsOp.count => "count"
  | StatsOp.min => "min"
  | StatsOp.max => "max"

/-- Embeds `Math.min(...values)`; behind the tool's non-empty guard the list
is never empty, so the (unreachable) empty case is fixed at 0 rather than
JavaScript's Infinity. -/
def jsMathMin : List ℚ → ℚ
  | [] => 0
  | x :: xs => xs.foldl Min.min x

/-- Embeds `Math.max(...values)`; see `jsMathMin` for the empty case. -/
def jsMathMax : List ℚ → ℚ
  | [] => 0
  | x :: xs => xs.foldl Max.max x

/-- Embeds the `switch (operation)` computing `result` in the
`data_analysis` handler.  The switch is textually identical in the two
versions of src/tools.ts (lines 46-54 and lines 234-257 of the snapshot):
`mean` is `values.reduce((a,b)=>a+b,0)/values.length`, `median` sorts a copy
ascending (`[...values].sort((a,b)=>a-b)`), takes `m = floor(length/2)` and
returns `s[m]` for odd length, `(s[m-1]+s[m])/2` for even.  JS indexing is
rendered with `List.getD _ 0`; index `m-1` is natural subtraction, which
differs from JS only on the empty list, unreachable behind the guard. -/
def dataAnalysisValue (operation : StatsOp) (values : List ℚ) : ℚ :=
  match operation with
  | StatsOp.mean => values.foldl (· + ·) 0 / (values.length : ℚ)
  | StatsOp.sum => values.foldl (· + ·) 0
  | StatsOp.count => (values.length : ℚ)
  | StatsOp.min => jsMathMin values
  | StatsOp.max => jsMathMax values
  | StatsOp.median =>
      let s := values.insertionSort (· ≤ ·)
      let m := s.length / 2
      if s.length % 2 = 1 then s.getD m 0
      else (s.getD (m - 1) 0 + s.getD m 0) / 2

/-- Renders a rational to two decimal places, embedding
`Number.prototype.toFixed(2)` as used on similarity scores and analysis
results in the class version of src/tools.ts. -/
def toFixed2 (q : ℚ) : String :=
  let scaled : Int := round (q * 100)
  let digits := toString scaled.natAbs
  let padded :=
    if digits.length < 3 then String.mk (List.replicate (3 - digits.length) '0') ++ digits
    else digits
  (if scaled < 0 then "-" else "") ++ padded.dropRight 2 ++ "." ++ padded.takeRight 2

/-- A calendar instant as the `datetime` tool manipulates one: a (local)
day number and the milliseconds elapsed within that day.
`new Date()` supplies such an instant; `toISOString`/`toLocaleString` only
render it. -/
structure Instant where
  day : Int
  msOfDay : Nat
deriving DecidableEq, Repr

/-- Embeds `future.setDate(future.getDate() + days)` on a copy of the base
date: day-of-month arithmetic normalises through month boundaries, so its
net effect is a shift of the calendar day by `days` with the time of day
kept. -/
def addDaysInstant (i : Instant) (d : Int) : Instant :=
  { i with day := i.day + d }

/-- The `datetime` tool's action enum (`z.enum(['current','add_days','format'])`). -/
inductive DtAction where
  | current
  | add_days
  | format
deriving DecidableEq, Repr

/-- Which branch of the `datetime` handler produced the answer, and the
instant whose rendering the returned string embeds. -/
inductive DtOutcome where
  | currentAt (i : Instant)
  | afterDays (d : Int) (i : Instant)
  | localeFormatted (i : Instant)
  | invalidRequest
deriving DecidableEq, Repr

/-- The calendar instant denoted by a `datetime` tool answer, when the
branch renders one. -/
def dtInstant : DtOutcome → Option Instant
  | DtOutcome.currentAt i => some i
  | DtOutcome.afterDays _ i => some i
  | DtOutcome.localeFormatted i => some i
  | DtOutcome.invalidRequest => none

/-- Name and description of a registered tool, the identity the executor
binds (`allTools`).  Handlers are embedded as the standalone functions in
the `SimpleTools` and `ClassTools` namespaces; argument schemas live in the
handlers' argument types. -/
structure ToolDecl where
  name : String
  description : String
deriving DecidableEq, Repr

namespace SimpleTools

/-! Current "runtime-friendly" version of src/tools.ts (plain objects,
lines 1-87 of the snapshot). -/

/-- Environment of the plain-object `document_search` tool: `configured` is
whether both `supabase` and `embeddings` clients were constructed (the env
vars were present), `embed` is `embeddings.embedQuery` (it may reject), and
`matchDocuments` is the store's `match_documents` remote procedure taking
the query embedding, the match threshold and the match count. -/
structure SearchEnv where
  configured : Bool
  embed : String → Except Thrown (List ℚ)
  matchDocuments : List ℚ → ℚ → Int → RpcResult

/-- Embeds `DocumentSearchTool.call` of the current tools.ts (lines 23-35):
note the body has no try/catch and executes `if (error) throw error;`, so a
store-reported error (and an embedding rejection) escapes as an exception —
rendered here by the `Except.error` results. -/
def documentSearchCall (env : SearchEnv) (query : String) (limit : Option Int) :
    Except Thrown String :=
  if env.configured = false then Except.ok "Document search not configured."
  else
    match env.embed query with
    | Except.error e => Except.error e
    | Except.ok queryEmbedding =>
        let resp := env.matchDocuments queryEmbedding (78 / 100 : ℚ) (limit.getD 5)
        match resp.error with
        | some e => Except.error e
        | none =>
            match resp.data with
            | none => Except.ok "No relevant documents found."
            | some [] => Except.ok "No relevant documents found."
            | some rows =>
                Except.ok (String.intercalate "\n" (rows.enum.map (fun p =>
                  "Result " ++ toString (p.1 + 1) ++ ": " ++ p.2.content)))

/-- Embeds `DataAnalysisTool.call` of the current tools.ts (lines 42-58):
empty input is rejected with a plain string before the switch runs, and the
result line is `` `${operation}: ${result}` ``. -/
def dataAnalysisCall (operation : StatsOp) (values : List ℚ) : String :=
  if values.length = 0 then "No values provided."
  else statsOpName operation ++ ": " ++ toString (dataAnalysisValue operation values)

/-- Embeds `DateTimeTool.call` of the current tools.ts (lines 65-71):
`current` answers with the present instant, `add_days` with the shifted
copy when `days` is a number, and every other case falls through to the
locale-formatted present instant. -/
def dateTimeCall (now : Instant) (action : DtAction) (days : Option Int) : DtOutcome :=
  match action, days with
  | DtAction.current, _ => DtOutcome.currentAt now
  | DtAction.add_days, some d => DtOutcome.afterDays d (addDaysInstant now d)
  | _, _ => DtOutcome.localeFormatted now

/-- Embeds `ConversationMemoryTool.call` of the current tools.ts
(lines 78-82): a stub that never contacts the store. -/
def conversationMemoryCall (action : String) (_message : Option String) : String :=
  if action == "save" then "Conversation saved (stub)."
  else "No conversation history (stub)."

/-- Embeds `allTools` of the current tools.ts (line 85): the four
plain-object tools, in source order. -/
def allTools : List ToolDecl :=
  [ { name := "document_search",
      description := "Search company documents using semantic search (Supabase)" },
    { name := "data_analysis",
      description := "Perform basic stats: mean, median, sum, min, max, count" },
    { name := "datetime",
      description := "Get the current date/time or add days" },
    { name := "conversation_memory",
      description := "Save or retrieve conversation messages (stub)" } ]

end SimpleTools

namespace ClassTools

/-!  Class version of src/tools.ts (lines 88-367 of the snapshot): five
`Tool` subclasses whose `_call` bodies are wrapped in try/catch. -/

/-- Environment of the class tools: the embeddings client and the store's
`match_documents` remote procedure (both constructed unconditionally in
this version). -/
structure StoreEnv where
  embed : String → Except Thrown (List ℚ)
  matchDocuments : List ℚ → ℚ → Int → RpcResult

/-- The try-block of `DocumentSearchTool._call` (lines 133-162): embed the
query, call `match_documents` with threshold 0.78 and count `limit`
(default 5), throw a reported store error, and format hits as
`Result i:\nContent: ...\nSimilarity: x.xx\n` joined by newlines. -/
def documentSearchInner (env : StoreEnv) (query : String) (limit : Option Int) :
    Except Thrown String :=
  match env.embed query with
  | Except.error e => Except.error e
  | Except.ok queryEmbedding =>
      let resp := env.matchDocuments queryEmbedding (78 / 100 : ℚ) (limit.getD 5)
      match resp.error with
      | some e => Except.error e
      | none =>
          match resp.data with
          | none => Except.ok "No relevant documents found for your query."
          | some [] => Except.ok "No relevant documents found for your query."
          | some docs =>
              Except.ok (String.intercalate "\n" (docs.enum.map (fun p =>
                "Result " ++ toString (p.1 + 1) ++ ":\nContent: " ++ p.2.content ++
                  "\nSimilarity: " ++ toFixed2 p.2.similarity ++ "\n")))

/-- `DocumentSearchTool._call` with its catch clause (line 160): a thrown
value is converted to the `Error searching documents: ...` string, so the
method always resolves with a string. -/
def documentSearchCall (env : StoreEnv) (query : String) (limit : Option Int) : String :=
  match documentSearchInner env query limit with
  | Except.ok s => s
  | Except.error e => "Error searching documents: " ++ thrownMessage e

/-- The `{data, error}` shape resolved by a supabase table query; rows are
kept opaque (the tool only serialises them). -/
structure DbResult where
  data : Option (List String)
  error : Option Thrown

/-- Environment of `DatabaseQueryTool`: `runQuery table eqFilters limit`
models `supabase.from(table).select('*').limit(limit)` with each filter
applied as an `.eq(key, value)` condition in `Object.entries` order. -/
structure DbEnv where
  runQuery : String → List (String × String) → Int → DbResult

/-- The table allow-list of `DatabaseQueryTool._call` (line 184). -/
def allowedTables : List String := ["documents", "agent_conversations", "document_chunks"]

/-- Placeholder for `JSON.stringify(data, null, 2)` over rows that are kept
opaque; its exact text is outside every claim. -/
def jsonStringifyRows (rows : List String) : String :=
  "[\n" ++ String.intercalate ",\n" rows ++ "\n]"

/-- The try-block of `DatabaseQueryTool._call` (lines 179-208), instrumented:
the second component records which table names were forwarded to the store,
so that "never reaches the store" is a provable statement.  A table off the
allow-list is rejected before any store access; otherwise the query runs,
a reported error is thrown, and rows (or the no-data sentinel) come back. -/
def databaseQueryInner (env : DbEnv) (table : String) (filters : List (String × String))
    (limit : Option Int) : Except Thrown String × List String :=
  if allowedTables.contains table = false then
    (Except.ok ("Error: Table '" ++ table ++ "' is not allowed. Allowed tables: " ++
      String.intercalate ", " allowedTables), [])
  else
    let resp := env.runQuery table filters (limit.getD 10)
    match resp.error with
    | some e => (Except.error e, [table])
    | none =>
        match resp.data with
        | none => (Except.ok "No data found matching your criteria.", [table])
        | some [] => (Except.ok "No data found matching your criteria.", [table])
        | some rows => (Except.ok (jsonStringifyRows rows), [table])

/-- `DatabaseQueryTool._call` with its catch clause (line 206), keeping the
store-access log of the inner computation. -/
def databaseQueryCall (env : DbEnv) (table : String) (filters : List (String × String))
    (limit : Option Int) : String × List String :=
  match databaseQueryInner env table filters limit with
  | (Except.ok s, log) => (s, log)
  | (Except.error e, log) => ("Error querying database: " ++ thrownMessage e, log)

/-- Embeds `DataAnalysisTool._call` (lines 224-263): empty input is
rejected with the explanatory string before the switch, and the result line
is `` `${operation.toUpperCase()}: ${result.toFixed(2)}` ``.  The switch is
`dataAnalysisValue`; its body is pure, so the catch clause is dead code. -/
def dataAnalysisCall (operation : StatsOp) (values : List ℚ) : String :=
  if values.length = 0 then "Error: No values provided for analysis."
  else (statsOpName operation).toUpper ++ ": " ++ toFixed2 (dataAnalysisValue operation values)

/-- Embeds `DateTimeTool._call` (lines 333-357): `current` renders the
present instant, `add_days` requires `days` to be a number and renders the
shifted copy, `format` requires a format string and renders the present
instant in locale form, and anything else is the invalid-action error. -/
def dateTimeCall (now : Instant) (action : DtAction) (days : Option Int)
    (fmt : Option String) : DtOutcome :=
  match action, days, fmt with
  | DtAction.current, _, _ => DtOutcome.currentAt now
  | DtAction.add_days, some d, _ => DtOutcome.afterDays d (addDaysInstant now d)
  | DtAction.format, _, some _ => DtOutcome.localeFormatted now
  | _, _, _ => DtOutcome.invalidRequest

/-- Embeds `allTools` of the class version (lines 361-367): the five tool
instances, in source order. -/
def allTools : List ToolDecl :=
  [ { name := "document_search",
      description := "Search through company documents and knowledge base using semantic search. Use this when you need to find specific information from documents." },
    { name := "database_query",
      description := "Query the database for structured data like user records, transactions, or metrics. Only read operations are allowed." },
    { name := "data_analysis",
      description := "Perform statistical analysis on data: calculate mean, median, sum, trends, etc." },
    { name := "conversation_memory",
      description := "Save and retrieve conversation history for maintaining context across sessions." },
    { name := "datetime",
      description := "Get current date and time, or perform date calculations." } ]

end ClassTools

/-! ## CLI harness (src/index.ts) -/

/-- The required environment variables checked at startup
(src/index.ts lines 29-34), in source order. -/
def requiredEnvVars : List String :=
  ["OPENAI_API_KEY", "SUPABASE_URL", "SUPABASE_KEY", "LANGSMITH_API_KEY"]

/-- JavaScript truthiness of `process.env[name]`: an unset variable is
`undefined` (falsy) and the empty string is falsy. -/
def truthy : Option String → Bool
  | none => false
  | some s => s != ""

/-- Outcome of the startup prelude of `main`: whether `process.exit` was
reached (and with which status), the per-variable error lines printed, and
whether control ever reached `createProductionAgent` (all model and store
traffic happens at or after that construction). -/
structure StartupResult where
  exitCode : Option Nat
  errorLines : List String
  agentConstructed : Bool
deriving DecidableEq, Repr

/-- Embeds the environment validation of `main` (src/index.ts lines 29-59):
the missing variables are collected by a filter; if any, each is printed as
an `   - NAME` line and `process.exit(1)` runs before the agent is built;
otherwise startup proceeds into `createProductionAgent`. -/
def mainStartup (env : String → Option String) : StartupResult :=
  let missingVars := requiredEnvVars.filter (fun v => !(truthy (env v)))
  if missingVars.length > 0 then
    { exitCode := some 1,
      errorLines := missingVars.map (fun v => "   - " ++ v),
      agentConstructed := false }
  else
    { exitCode := none, errorLines := [], agentConstructed := true }

/-- Embeds the guard of `createProductionAgent` (src/agent.ts lines 45-47):
it throws before constructing the model client when the key is absent. -/
def createProductionAgentCheck (env : String → Option String) : Except Thrown Unit :=
  if truthy (env "OPENAI_API_KEY") = false then
    Except.error (Thrown.err "OPENAI_API_KEY environment variable is required")
  else Except.ok ()

/-- Whitespace as `String.prototype.trim` removes it (restricted to the
ASCII whitespace characters that occur in terminal input). -/
def isJsWhitespace (c : Char) : Bool :=
  c == ' ' || c == '\t' || c == '\n' || c == '\r'

/-- Embeds JavaScript `input.trim()`: strip leading and trailing
whitespace. -/
def jsTrim (s : String) : String :=
  String.mk (((s.data.dropWhile isJsWhitespace).reverse.dropWhile isJsWhitespace).reverse)

/-- What the interactive read loop does with one input line. -/
inductive LineAction where
  | reprompt
  | exitProcess (code : Nat)
  | showHelp
  | askAgent (query : String)
deriving DecidableEq, Repr

/-- Embeds the line dispatch of `runInteractiveMode` (src/index.ts
lines 156-187): trim the line; a falsy (empty) trimmed line re-prompts
without touching the agent; `exit`/`quit` (case-insensitive) end the
process with status 0; `help` prints the tool list; anything else is
forwarded to `runAgent`. -/
def interactiveLineAction (input : String) : LineAction :=
  let query := jsTrim input
  if query == "" then LineAction.reprompt
  else if query.toLower == "exit" || query.toLower == "quit" then LineAction.exitProcess 0
  else if query.toLower == "help" then LineAction.showHelp
  else LineAction.askAgent query

/-! ## Concrete instances used by witnesses and counterexamples -/

/-- A thrown store error used by concrete scenarios. -/
def boomThrown : Thrown := Thrown.err "boom"

/-- An executor whose every invocation rejects. -/
def throwBoom : Executor Unit :=
  ⟨fun s _ => (Except.error boomThrown, s)⟩

/-- An executor that resolves every input with itself as output. -/
def echoOk : Executor Unit :=
  ⟨fun s input => (Except.ok { output := input }, s)⟩

/-- An executor that rejects exactly the query "q2". -/
def failQ2 : Executor Unit :=
  ⟨fun s input =>
    (if input == "q2" then Except.error boomThrown else Except.ok { output := input }, s)⟩

/-- An initial world with a constant clock. -/
def world0 : World Unit :=
  { execState := (), time := fun _ => 0, tick := 0 }

/-- A configured simple-tools search environment whose store reports an
error on every remote call. -/
def simpleEnvBoom : SimpleTools.SearchEnv :=
  { configured := true,
    embed := fun _ => Except.ok [],
    matchDocuments := fun _ _ _ => { data := none, error := some boomThrown } }

/-- A class-tools store environment whose store reports an error on every
remote call. -/
def classEnvBoom : ClassTools.StoreEnv :=
  { embed := fun _ => Except.ok [],
    matchDocuments := fun _ _ _ => { data := none, error := some boomThrown } }

/-- A database environment whose every query resolves with no rows. -/
def dbEnvEmpty : ClassTools.DbEnv :=
  { runQuery := fun _ _ _ => { data := none, error := none } }

/-! ## Theorems -/

/-- Helper: `runAgent` on an invocation that resolves. -/
theorem runAgent_of_ok {σ : Type} (E : Executor σ) (input : String) (w : World σ)
    (out : AgentOutput) (s : σ) (h : E.invoke w.execState input = (Except.ok out, s)) :
    runAgent E input w =
      ({ success := true, output := some out.output, error := none,
         duration := some (w.time (w.tick + 1) - w.time w.tick), metadata := some out },
       { execState := s, time := w.time, tick := w.tick + 2 }) := by
  simp [runAgent, h]

/-- Helper: `runAgent` on an invocation that throws. -/
theorem runAgent_of_error {σ : Type} (E : Executor σ) (input : String) (w : World σ)
    (e : Thrown) (s : σ) (h : E.invoke w.execState input = (Except.error e, s)) :
    runAgent E input w =
      ({ success := false, output := some fallbackOutput,
         error := some (thrownMessage e), duration := none, metadata := none },
       { execState := s, time := w.time, tick := w.tick + 1 }) := by
  simp [runAgent, h]

/-- C1: for every executor and input, `runAgent` returns a result whose
`success` field reflects the invocation outcome, and whenever the executor
throws, the result has `success = false`, the fixed fallback `output`, and
the error's message; no exception propagates (in the embedding, `runAgent`
is a total function into `ExecutionResult`, the catch branch being the
`Except.error` case). -/
theorem runAgent_success_flag_and_fallback {σ : Type} (E : Executor σ) (input : String)
    (w : World σ) :
    ((runAgent E input w).1.success = true ↔
      ∃ out s, E.invoke w.execState input = (Except.ok out, s))
    ∧ (∀ e s, E.invoke w.execState input = (Except.error e, s) →
        (runAgent E input w).1.success = false
        ∧ (runAgent E input w).1.output = some fallbackOutput
        ∧ (runAgent E input w).1.error = some (thrownMessage e)) := by
  constructor
  · constructor
    · intro hs
      rcases h : E.invoke w.execState input with ⟨fst, snd⟩
      cases fst with
      | ok out => exact ⟨out, snd, rfl⟩
      | error e =>
          rw [runAgent_of_error E input w e snd h] at hs
          simp at hs
    · rintro ⟨out, s, h⟩
      rw [runAgent_of_ok E input w out s h]
  · intro e s h
    rw [runAgent_of_error E input w e s h]
    exact ⟨rfl, rfl, rfl⟩

/-- C1 witness: a concrete always-throwing executor yields the fallback
result. -/
theorem runAgent_success_flag_and_fallback_witness :
    (runAgent throwBoom "hello" world0).1.success = false
    ∧ (runAgent throwBoom "hello" world0).1.output = some fallbackOutput
    ∧ (runAgent throwBoom "hello" world0).1.error = some "boom" :=
  (runAgent_success_flag_and_fallback throwBoom "hello" world0).2 boomThrown () rfl

/-- C2: `batchProcess` returns exactly one result per query, and the i-th
result is `runAgent` applied to the i-th query in the world reached after
the first i queries — invocations are strictly sequential in input order,
and a failing query does not prevent later queries from producing their
results (the length equation holds for every executor, including ones that
throw on some queries). -/
theorem batchProcess_length_and_order {σ : Type} (E : Executor σ) (queries : List String)
    (w : World σ) :
    (batchProcess E queries w).1.length = queries.length
    ∧ ∀ i : Nat, (batchProcess E queries w).1[i]? =
        (queries[i]?).map (fun q => (runAgent E q (batchProcess E (queries.take i) w).2).1) := by
  induction queries generalizing w with
  | nil => exact ⟨rfl, fun i => by simp [batchProcess]⟩
  | cons q rest ih =>
      refine ⟨?_, ?_⟩
      · simpa [batchProcess] using (ih (runAgent E q w).2).1
      · intro i
        cases i with
        | zero => simp [batchProcess]
        | succ i => simpa [batchProcess] using (ih (runAgent E q w).2).2 i

/-- C7 counterexample: on a throwing turn the result object carries no
`duration` field at all (the catch branch of `runAgent` builds only
`{success, error, output}`), refuting the claim that every execution result
contains a nonnegative `durationMs`. -/
theorem runAgent_failure_lacks_duration :
    ¬ ∃ d : Int, (runAgent throwBoom "hello" world0).1.duration = some d ∧ 0 ≤ d := by
  rintro ⟨d, hd, -⟩
  rw [runAgent_of_error throwBoom "hello" world0 boomThrown () rfl] at hd
  simp at hd

/-- C7 amended: on success the result carries `durationMs` — a nonnegative
integer whenever the wall clock is nondecreasing — together with `output`
and the metadata pass-through; on failure it carries `error` and the
fallback `output` but no `duration` field. -/
theorem runAgent_duration_amended {σ : Type} (E : Executor σ) (input : String) (w : World σ)
    (hm : Monotone w.time) :
    (∀ out s, E.invoke w.execState input = (Except.ok out, s) →
      ∃ d : Int, (runAgent E input w).1.duration = some d ∧ 0 ≤ d
        ∧ (runAgent E input w).1.output = some out.output
        ∧ (runAgent E input w).1.metadata = some out)
    ∧ (∀ e s, E.invoke w.execState input = (Except.error e, s) →
      (runAgent E input w).1.duration = none
        ∧ (runAgent E input w).1.error = some (thrownMessage e)
        ∧ (runAgent E input w).1.output = some fallbackOutput) := by
  constructor
  · intro out s h
    rw [runAgent_of_ok E input w out s h]
    exact ⟨w.time (w.tick + 1) - w.time w.tick, rfl,
      sub_nonneg.mpr (hm (Nat.le_succ w.tick)), rfl, rfl⟩
  · intro e s h
    rw [runAgent_of_error E input w e s h]
    exact ⟨rfl, rfl, rfl⟩

/-- C7 witness: a concrete succeeding executor under a constant (hence
nondecreasing) clock produces a nonnegative duration. -/
theorem runAgent_duration_amended_witness :
    ∃ d : Int, (runAgent echoOk "hi" world0).1.duration = some d ∧ 0 ≤ d := by
  obtain ⟨d, h1, h2, -⟩ :=
    (runAgent_duration_amended echoOk "hi" world0 monotone_const).1 ⟨"hi"⟩ () rfl
  exact ⟨d, h1, h2⟩

/-- C3 counterexample: in the current tools.ts the plain-object
`DocumentSearchTool.call` has no try/catch and executes
`if (error) throw error;`, so with a configured store that reports an error
the exception crosses the tool boundary instead of becoming a string. -/
theorem documentSearchCall_throws_on_store_error :
    SimpleTools.documentSearchCall simpleEnvBoom "refunds" (some 2) = Except.error boomThrown
    ∧ ∀ s : String,
        SimpleTools.documentSearchCall simpleEnvBoom "refunds" (some 2) ≠ Except.ok s := by
  refine ⟨rfl, fun s h => ?_⟩
  simp [SimpleTools.documentSearchCall, simpleEnvBoom] at h

/-- C3 amended: the class-variant `_call` methods convert every internal
throw into a human-readable string (shown for `document_search`, whose
catch clause renders `Error searching documents: ...`), and `data_analysis`
applied to an empty values list returns an explanatory failure string for
every operation in both variants — but the current plain-object
`document_search.call` rethrows a store-reported error rather than
returning a string. -/
theorem toolBoundary_error_policy :
    (∀ (env : ClassTools.StoreEnv) (q : String) (l : Option Int) (e : Thrown),
      ClassTools.documentSearchInner env q l = Except.error e →
        ClassTools.documentSearchCall env q l = "Error searching documents: " ++ thrownMessage e)
    ∧ (∀ op : StatsOp, SimpleTools.dataAnalysisCall op [] = "No values provided.")
    ∧ (∀ op : StatsOp,
        ClassTools.dataAnalysisCall op [] = "Error: No values provided for analysis.") := by
  refine ⟨fun env q l e h => ?_, fun op => rfl, fun op => rfl⟩
  simp [ClassTools.documentSearchCall, h]

/-- C3 witness: the class-variant `document_search` turns a concrete store
error into its error string, and both `data_analysis` variants answer the
empty list with their failure strings. -/
theorem toolBoundary_error_policy_witness :
    ClassTools.documentSearchCall classEnvBoom "refunds" (some 2)
        = "Error searching documents: boom"
    ∧ SimpleTools.dataAnalysisCall StatsOp.mean [] = "No values provided."
    ∧ ClassTools.dataAnalysisCall StatsOp.median [] = "Error: No values provided for analysis." :=
  ⟨toolBoundary_error_policy.1 classEnvBoom "refunds" (some 2) boomThrown rfl,
    toolBoundary_error_policy.2.1 StatsOp.mean,
    toolBoundary_error_policy.2.2 StatsOp.median⟩

/-- Helper: `values.reduce((a,b)=>a+b, acc)` is `acc + values.sum`. -/
theorem foldl_add_eq_sum (l : List ℚ) (a : ℚ) : l.foldl (· + ·) a = a + l.sum := by
  induction l generalizing a with
  | nil => simp
  | cons x xs ih => simp [List.foldl_cons, ih, List.sum_cons]; ring

/-- C4: for every non-empty numeric sequence, `data_analysis`'s `mean`
computes `sum(v)/len(v)`, and `median` works on an ascending sorted copy of
the input (a sorted permutation), averaging the two middle elements for
even length and taking the element at index `floor(len/2)` for odd
length. -/
theorem dataAnalysis_mean_median_spec (v : List ℚ) (_hv : v ≠ []) :
    dataAnalysisValue StatsOp.mean v = v.sum / (v.length : ℚ)
    ∧ (v.insertionSort (· ≤ ·)).Sorted (· ≤ ·)
    ∧ (v.insertionSort (· ≤ ·)).Perm v
    ∧ dataAnalysisValue StatsOp.median v =
        (if v.length % 2 = 1 then (v.insertionSort (· ≤ ·)).getD (v.length / 2) 0
         else ((v.insertionSort (· ≤ ·)).getD (v.length / 2 - 1) 0
                + (v.insertionSort (· ≤ ·)).getD (v.length / 2) 0) / 2) := by
  have hlen : (v.insertionSort (· ≤ ·)).length = v.length :=
    (List.perm_insertionSort (· ≤ ·) v).length_eq
  refine ⟨?_, List.sorted_insertionSort (· ≤ ·) v, List.perm_insertionSort (· ≤ ·) v, ?_⟩
  · simp [dataAnalysisValue, foldl_add_eq_sum]
  · simp only [dataAnalysisValue, hlen]

/-- C4 witness: a concrete even-length list; its mean is 4 and its sorted
copy is `[1, 3, 5, 7]`, whose two middle elements average to 4. -/
theorem dataAnalysis_mean_median_witness :
    ([1, 7, 3, 5] : List ℚ) ≠ []
    ∧ dataAnalysisValue StatsOp.mean [1, 7, 3, 5]
        = ([1, 7, 3, 5] : List ℚ).sum / (([1, 7, 3, 5] : List ℚ).length : ℚ)
    ∧ dataAnalysisValue StatsOp.mean [1, 7, 3, 5] = 4
    ∧ dataAnalysisValue StatsOp.median [1, 7, 3, 5] = 4 := by
  refine ⟨by simp, (dataAnalysis_mean_median_spec [1, 7, 3, 5] (by simp)).1, ?_, ?_⟩
  · norm_num [dataAnalysisValue]
  · norm_num [dataAnalysisValue, List.getD]

/-- C5: a table off the allow-list is answered with the rejection string
and no request for that table is ever issued to the hosted store (the
instrumented store-access log stays empty). -/
theorem databaseQuery_rejects_disallowed_table (env : ClassTools.DbEnv) (table : String)
    (filters : List (String × String)) (limit : Option Int)
    (h : table ∉ ClassTools.allowedTables) :
    (ClassTools.databaseQueryCall env table filters limit).1 =
      "Error: Table '" ++ table ++ "' is not allowed. Allowed tables: " ++
        String.intercalate ", " ClassTools.allowedTables
    ∧ String.intercalate ", " ClassTools.allowedTables =
        "documents, agent_conversations, document_chunks"
    ∧ (ClassTools.databaseQueryCall env table filters limit).2 = [] := by
  have hc : ClassTools.allowedTables.contains table = false := by
    simpa using h
  refine ⟨?_, rfl, ?_⟩ <;>
    simp [ClassTools.databaseQueryCall, ClassTools.databaseQueryInner, hc, h]

/-- C5 witness: the table name `users` is rejected with the exact allow-list
string and the store log stays empty. -/
theorem databaseQuery_rejects_disallowed_table_witness :
    (ClassTools.databaseQueryCall dbEnvEmpty "users" [] none).1 =
      "Error: Table 'users' is not allowed. Allowed tables: documents, agent_conversations, document_chunks"
    ∧ (ClassTools.databaseQueryCall dbEnvEmpty "users" [] none).2 = [] := by
  have h := databaseQuery_rejects_disallowed_table dbEnvEmpty "users" [] none (by decide)
  exact ⟨h.1, h.2.2⟩

/-- C6 counterexample: the `allTools` bound by the current src/agent.ts
(line 85 of the current src/tools.ts) has four members, not five — the
plain-object version carries no `database_query` tool. -/
theorem allTools_current_set_is_four :
    SimpleTools.allTools.length = 4 ∧ SimpleTools.allTools.length ≠ 5 :=
  ⟨rfl, by decide⟩

/-- C6 amended: the class-version `allTools` (lines 361-367) is exactly the
five tools with pairwise-distinct names, while the current plain-object
`allTools` is exactly four tools (no `database_query`); both are constant
lists, immutable after construction in the embedding. -/
theorem allTools_membership :
    ClassTools.allTools.length = 5
    ∧ ClassTools.allTools.map ToolDecl.name =
        ["document_search", "database_query", "data_analysis", "conversation_memory", "datetime"]
    ∧ (ClassTools.allTools.map ToolDecl.name).Nodup
    ∧ SimpleTools.allTools.length = 4
    ∧ SimpleTools.allTools.map ToolDecl.name =
        ["document_search", "data_analysis", "datetime", "conversation_memory"] := by
  refine ⟨rfl, rfl, ?_, rfl, rfl⟩
  decide

/-- C8: when any of the four required configuration variables is unset (or
empty), startup exits with status 1, prints an error line naming that
variable, and never reaches agent construction — so no network call is
attempted; moreover `createProductionAgent` itself would throw if it were
reached without `OPENAI_API_KEY`. -/
theorem startup_missing_env_exits (env : String → Option String) (v : String)
    (hmem : v ∈ requiredEnvVars) (hv : truthy (env v) = false) :
    (mainStartup env).exitCode = some 1
    ∧ ("   - " ++ v) ∈ (mainStartup env).errorLines
    ∧ (mainStartup env).agentConstructed = false
    ∧ (truthy (env "OPENAI_API_KEY") = false →
        createProductionAgentCheck env =
          Except.error (Thrown.err "OPENAI_API_KEY environment variable is required")) := by
  have hmem2 : v ∈ requiredEnvVars.filter (fun x => !(truthy (env x))) :=
    List.mem_filter.mpr ⟨hmem, by simp [hv]⟩
  have hpos : 0 < (requiredEnvVars.filter (fun x => !(truthy (env x)))).length :=
    List.length_pos.mpr (List.ne_nil_of_mem hmem2)
  have key : mainStartup env =
      { exitCode := some 1,
        errorLines := (requiredEnvVars.filter (fun x => !(truthy (env x)))).map
          (fun x => "   - " ++ x),
        agentConstructed := false } := by
    simp [mainStartup, hpos]
  refine ⟨by rw [key], ?_, by rw [key], fun h0 => by simp [createProductionAgentCheck, h0]⟩
  rw [key]
  exact List.mem_map.mpr ⟨v, hmem2, rfl⟩

/-- C8 witness: an environment with every variable set except
`OPENAI_API_KEY` exits with status 1 and prints the line naming it. -/
theorem startup_missing_env_exits_witness :
    (mainStartup (fun v => if v == "OPENAI_API_KEY" then none else some "x")).exitCode = some 1
    ∧ ("   - OPENAI_API_KEY") ∈
        (mainStartup (fun v => if v == "OPENAI_API_KEY" then none else some "x")).errorLines
    ∧ (mainStartup (fun v => if v == "OPENAI_API_KEY" then none else some "x")).agentConstructed
        = false
    ∧ createProductionAgentCheck (fun v => if v == "OPENAI_API_KEY" then none else some "x") =
        Except.error (Thrown.err "OPENAI_API_KEY environment variable is required") := by
  have h := startup_missing_env_exits (fun v => if v == "OPENAI_API_KEY" then none else some "x")
    "OPENAI_API_KEY" (by decide) (by decide)
  exact ⟨h.1, h.2.1, h.2.2.1, h.2.2.2 (by decide)⟩

/-- C9: within one call (a fixed base instant), `add_days` with 0 days
denotes the same calendar instant as `current`, and shifting by -3 days and
then by 3 days from the resulting base returns the original instant —
zero-day shift is the identity and shift-by-d has shift-by-(-d) as its
inverse.  Shown for the class version and the current plain-object
version of the `datetime` tool. -/
theorem dateTime_addDays_identity_and_inverse (now : Instant) :
    dtInstant (ClassTools.dateTimeCall now DtAction.add_days (some 0) none)
        = dtInstant (ClassTools.dateTimeCall now DtAction.current none none)
    ∧ dtInstant (ClassTools.dateTimeCall now DtAction.current none none) = some now
    ∧ dtInstant (ClassTools.dateTimeCall now DtAction.add_days (some (-3)) none)
        = some (addDaysInstant now (-3))
    ∧ dtInstant (ClassTools.dateTimeCall (addDaysInstant now (-3)) DtAction.add_days (some 3) none)
        = some now
    ∧ dtInstant (SimpleTools.dateTimeCall now DtAction.add_days (some 0))
        = dtInstant (SimpleTools.dateTimeCall now DtAction.current none) := by
  have h0 : addDaysInstant now 0 = now := by
    cases now with
    | mk day ms => simp [addDaysInstant]
  have h3 : addDaysInstant (addDaysInstant now (-3)) 3 = now := by
    cases now with
    | mk day ms =>
        have hday : day + -3 + 3 = day := by omega
        simp [addDaysInstant, hday]
  refine ⟨?_, rfl, rfl, ?_, ?_⟩
  · simp [ClassTools.dateTimeCall, dtInstant, h0]
  · simp [ClassTools.dateTimeCall, dtInstant, h3]
  · simp [SimpleTools.dateTimeCall, dtInstant, h0]

/-- C10: an interactive input line that is empty or consists only of
whitespace trims to the empty (falsy) string and makes the loop re-prompt:
the agent is not invoked and no result is printed for that line. -/
theorem interactive_blank_line_reprompts (input : String)
    (h : input.data.all isJsWhitespace = true) :
    interactiveLineAction input = LineAction.reprompt := by
  have htrim : jsTrim input = "" := by
    have h1 : input.data.dropWhile isJsWhitespace = [] :=
      List.dropWhile_eq_nil_iff.mpr (fun x hx => by
        simpa using (List.all_eq_true.mp h x hx))
    simp [jsTrim, h1]
  simp [interactiveLineAction, htrim]

/-- C10 witness: a line of three spaces is skipped. -/
theorem interactive_blank_line_reprompts_witness :
    ("   " : String).data.all isJsWhitespace = true
    ∧ interactiveLineAction "   " = LineAction.reprompt :=
  ⟨by decide, interactive_blank_line_reprompts "   " (by decide)⟩
